import Mathlib

/-!
Verification of the wallet-scoring core (backend/scoring_model.py).

The scoring engine is embedded shallowly:
* pandas data frames become lists of records (`Tx`, `Erc20Rec`);
* floats become real numbers (`ℝ`); `round(x, 2)` becomes `round2`
  (Mathlib's `round`, which differs from Python's banker's rounding only
  at exact half-way ties, none of which occur in the claims below);
* the DuckDB store, the Etherscan label service and the wall clock are
  passed in as explicit parameters (`store`, `lookup`, `now`), mirroring
  the fail-soft adapters of the source;
* `numpy` formulas (`np.log`, `np.log10`, `np.exp`, `np.clip`) become
  `Real.log`, `Real.logb 10`, `Real.exp` and `npClip`.
-/

/-- Python `str.strip` whitespace set (ASCII). -/
def pyWhitespaceChar (c : Char) : Bool :=
  decide (c ∈ [' ', '\t', '\n', '\r', '\x0B', '\x0C'])

/-- Strip leading and trailing whitespace from a character list. -/
def pyStripChars (l : List Char) : List Char :=
  ((l.dropWhile pyWhitespaceChar).reverse.dropWhile pyWhitespaceChar).reverse

/-- Python `str.strip`. -/
def pyStrip (s : String) : String := ⟨pyStripChars s.data⟩

/-- Python `str.lower` on one character (ASCII case mapping). -/
def pyLowerChar (c : Char) : Char :=
  if 'A' ≤ c ∧ c ≤ 'Z' then Char.ofNat (c.toNat + 32) else c

/-- Python `str.lower`. -/
def pyLowerStr (s : String) : String := ⟨s.data.map pyLowerChar⟩

/-- One character of the class `[a-f0-9]`. -/
def isLowerHexChar (c : Char) : Bool :=
  decide (('0' ≤ c ∧ c ≤ '9') ∨ ('a' ≤ c ∧ c ≤ 'f'))

/-- Embeds `ETH_ADDRESS_RE.fullmatch`: the regex `^0x[a-f0-9]{40}$`. -/
def matchesEthAddr (s : String) : Bool :=
  decide (s.data.length = 42 ∧ s.data.take 2 = ['0', 'x'] ∧
    (s.data.drop 2).all isLowerHexChar = true)

/-- Embeds `normalize_address` (scoring_model.py:35-39): trim, lowercase, and
check the address pattern; the `ValueError` branch becomes `none`. -/
def normalize_address (address : String) : Option String :=
  let a := pyLowerStr (pyStrip address)
  if matchesEthAddr a then some a else none

/-- The label payload returned by the Etherscan tag lookup: free-text
labels and label slugs (`tag_obj["labels"]`, `tag_obj["labels_slug"]`).
An absent or falsy payload is modelled as `Option.none` at use sites. -/
structure LabelInfo where
  labels : List String
  labels_slug : List String

/-- Embeds `scam_markers` (scoring_model.py:126). -/
def SCAM_MARKERS : List String :=
  ["phish", "hack", "scam", "drainer", "malicious", "exploit", "fraud",
   "blacklist", "ofac"]

/-- Python's `m in hay` substring test. -/
def strContainsSub (hay m : String) : Bool := decide (m.data <:+: hay.data)

/-- Python `" ".join`. -/
def joinWithSpace : List String → String
  | [] => ""
  | [s] => s
  | s :: rest => s ++ " " ++ joinWithSpace rest

/-- Embeds `is_scam_label` (scoring_model.py:116-127). -/
def is_scam_label (tag : Option LabelInfo) : Bool :=
  match tag with
  | none => false
  | some t =>
    let labels_norm := joinWithSpace (t.labels.map pyLowerStr)
    let slugs_norm := joinWithSpace (t.labels_slug.map pyLowerStr)
    (SCAM_MARKERS.any fun m => strContainsSub labels_norm m) ||
      (SCAM_MARKERS.any fun m => strContainsSub slugs_norm m)

/-- One row of the transaction table after the store adapter's field
normalization: integer timestamp, address columns, value in ETH. -/
structure Tx where
  timeStamp : ℤ
  fromAddr : String
  toAddr : String
  value_eth : ℚ
deriving DecidableEq

/-- One row of the ERC-20 transfer table. -/
structure Erc20Rec where
  contractAddress : String
  tokenSymbol : String
deriving DecidableEq

/-- Embeds `fetch_tx_from_db` column normalization (scoring_model.py:64-67):
address columns are lowercased.  The DuckDB read and the `empty_flag`
handling are modelled by the `store` parameter itself. -/
def fetch_tx_from_db (store : String → List Tx) (a : String) : List Tx :=
  (store a).map fun t =>
    { t with toAddr := pyLowerStr t.toAddr, fromAddr := pyLowerStr t.fromAddr }

/-- Embeds `fetch_erc20_from_db` column normalization (scoring_model.py:83-84). -/
def fetch_erc20_from_db (store : String → List Erc20Rec) (a : String) :
    List Erc20Rec :=
  (store a).map fun r => { r with contractAddress := pyLowerStr r.contractAddress }

/-- The lowercased recipient column `df_tx["to"].astype(str).str.lower()`. -/
def recipientList (txs : List Tx) : List String :=
  txs.map fun t => pyLowerStr t.toAddr

/-- Occurrence count of one recipient. -/
def cpCount (tos : List String) (a : String) : ℕ := tos.count a

/-- First-seen position of one recipient. -/
def cpIdx (tos : List String) (a : String) : ℕ := tos.indexOf a

/-- Embeds `value_counts` ranking: occurrence count descending, ties broken by
first appearance. -/
def cpLE (tos : List String) (a b : String) : Bool :=
  decide (cpCount tos b < cpCount tos a ∨
    (cpCount tos a = cpCount tos b ∧ cpIdx tos a ≤ cpIdx tos b))

/-- Embeds `df_tx["to"].value_counts().head(40).index`: the distinct recipients
ranked by count descending, first-seen order on ties, capped at
`max_to_check = 40`.  On distinct recipients the rank key is a linear
order, so any sort realises exactly the pandas order. -/
def topRecipients (txs : List Tx) : List String :=
  let tos := recipientList txs
  (tos.dedup.mergeSort (cpLE tos)).take 40

/-- Embeds `detect_tagged_scam_counterparties` (scoring_model.py:129-158).
`lookup` models `get_etherscan_address_tag`, whose network/parse
failures already surface as `none`; `apiConfigured` models the
`ETHERSCAN_API_KEY` presence check.  The rate-limit `time.sleep` has no
semantic content and is dropped. -/
def detect_tagged_scam_counterparties (lookup : String → Option LabelInfo)
    (apiConfigured : Bool) (txs : List Tx) : ℕ × List String :=
  if txs = [] ∨ apiConfigured = false then (0, [])
  else
    let tagged := (topRecipients txs).filter fun a =>
      matchesEthAddr a && is_scam_label (lookup a)
    (tagged.length, tagged.take 10)

/-- Embeds `np.clip x lo hi`. -/
noncomputable def npClip (x lo hi : ℝ) : ℝ := max lo (min x hi)

/-- Python `round(x, 2)`. -/
noncomputable def round2 (x : ℝ) : ℝ := ((round (x * 100) : ℤ) : ℝ) / 100

/-- Earliest timestamp of the transaction set (`df_tx["datetime"].min()`). -/
def minTimeStamp : List Tx → ℤ
  | [] => 0
  | t :: ts => ts.foldl (fun m x => min m x.timeStamp) t.timeStamp

/-- Embeds `calculate_longevity_score` (scoring_model.py:163-172); `now` is the
UTC clock reading and `(now - first_tx).days` floors (`Int.fdiv`). -/
noncomputable def calculate_longevity_score (txs : List Tx) (now : ℤ) : ℝ :=
  if txs = [] then 0
  else
    let first := minTimeStamp txs
    let days : ℤ := max ((now - first).fdiv 86400) 0
    let denom : ℝ := Real.log (730 + 1)
    let score : ℝ := if 0 < denom then Real.log ((days : ℝ) + 1) / denom * 100 else 0
    round2 (min score 100)

/-- Embeds `calculate_activity_score` (scoring_model.py:174-190). -/
noncomputable def calculate_activity_score (txs : List Tx) : ℝ :=
  if txs = [] then 0
  else
    let tx_count : ℕ := txs.length
    let volume_eth : ℝ := ((txs.map fun t => t.value_eth).sum : ℚ)
    let tx_norm := npClip (Real.logb 10 ((tx_count : ℝ) + 1) / Real.logb 10 (5000 + 1)) 0 1
    let vol_norm := npClip (Real.logb 10 (volume_eth + 1) / Real.logb 10 (10000 + 1)) 0 1
    round2 ((0.5 * tx_norm + 0.5 * vol_norm) * 100)

/-- Embeds `calculate_diversity_score` (scoring_model.py:192-198);
`nunique` is the number of distinct recipients. -/
noncomputable def calculate_diversity_score (txs : List Tx) : ℝ :=
  if txs = [] then 0
  else
    let unique_to : ℕ := (txs.map fun t => t.toAddr).dedup.length
    let score : ℝ := if (0 : ℝ) < 25 then min 100 ((unique_to : ℝ) / 25 * 100) else 0
    round2 score

/-- Embeds `KNOWN_SCAM_ADDRESSES` (scoring_model.py:204-207). -/
def KNOWN_SCAM_ADDRESSES : List String :=
  ["0xdeadbeefdeadbeefdeadbeefdeadbeefdeadbeef",
   "0x1234567812345678123456781234567812345678"]

/-- Embeds `calculate_general_risk_score` (scoring_model.py:200-217). -/
noncomputable def calculate_general_risk_score (txs : List Tx)
    (tagged_scam_count : ℕ) : ℝ :=
  if txs = [] then 100
  else
    let incidents_list : ℕ :=
      (txs.filter fun t => decide (t.toAddr ∈ KNOWN_SCAM_ADDRESSES)).length
    let incidents : ℕ := incidents_list + tagged_scam_count
    round2 (npClip (100 * Real.exp (-(0.9) * (incidents : ℝ))) 0 100)

/-- Embeds `MIXER_OR_PRIVACY_TOOLING` (scoring_model.py:220-223). -/
def MIXER_OR_PRIVACY_TOOLING : List String :=
  ["0x1111111111111111111111111111111111111111",
   "0x2222222222222222222222222222222222222222"]

/-- Embeds `PRIVACY_TOKEN_CONTRACTS` (scoring_model.py:229-232). -/
def PRIVACY_TOKEN_CONTRACTS : List String :=
  ["0xaaaaaaaaaaaaaaaaaaaaaaaaaaaaaaaaaaaaaaaa",
   "0xbbbbbbbbbbbbbbbbbbbbbbbbbbbbbbbbbbbbbbbb"]

/-- Embeds `calculate_asset_risk_score` (scoring_model.py:219-242). -/
noncomputable def calculate_asset_risk_score (txs : List Tx)
    (erc20 : List Erc20Rec) : ℝ :=
  let incidents_tools : ℕ :=
    if txs = [] then 0
    else (txs.filter fun t => decide (t.toAddr ∈ MIXER_OR_PRIVACY_TOOLING)).length
  let incidents_tokens : ℕ :=
    if erc20 = [] then 0
    else (erc20.filter fun r => decide (r.contractAddress ∈ PRIVACY_TOKEN_CONTRACTS)).length
  let incidents : ℕ := incidents_tools + incidents_tokens
  round2 (npClip (100 * Real.exp (-(0.6) * (incidents : ℝ))) 0 100)

/-- Embeds `WEIGHTS` (scoring_model.py:16-22), in dict insertion order. -/
def WEIGHTS : List (String × ℕ) :=
  [("Activity_Score", 25), ("Longevity_Score", 20), ("Diversity_Score", 25),
   ("General_Risk_Score", 25), ("Asset_Risk_Score", 5)]

/-- The `indicators` dict built at scoring_model.py:262-268. -/
noncomputable def mkIndicators (a l d g r : ℝ) : List (String × ℝ) :=
  [("Activity_Score", a), ("Longevity_Score", l), ("Diversity_Score", d),
   ("General_Risk_Score", g), ("Asset_Risk_Score", r)]

/-- Dict access `indicators[k]` (all keys are present at use sites). -/
def lookupD (ind : List (String × ℝ)) (k : String) : ℝ :=
  ((ind.lookup k).getD 0)

/-- The aggregation `sum(indicators[k] * WEIGHTS[k] for k in WEIGHTS) / 100.0`
(scoring_model.py:270). -/
noncomputable def aggregateScore (ind : List (String × ℝ)) : ℝ :=
  ((WEIGHTS.map fun kw => lookupD ind kw.1 * (kw.2 : ℝ)).sum) / 100

/-- The profile classification chain (scoring_model.py:272-279). -/
noncomputable def profile_of (s : ℝ) : String :=
  if 85 ≤ s then ("Power User - High Reputation")
  else if 60 ≤ s then ("Stable User - Medium Reputation")
  else if 30 ≤ s then ("Inactive/New User - Low Reputation")
  else ("Low Trust / Risk-Exposed Wallet")

/-- The result dict of `calculate_final_score`.  Error results carry no
profile, no indicator values, no weights and no diagnostics. -/
structure ScoreOutcome where
  address : String
  status : String
  final_score : ℝ
  profile : Option String
  indicators : List (String × ℝ)
  weights : List (String × ℕ)
  diagnostics : Option (ℕ × List String)

/-- Embeds `calculate_final_score` (scoring_model.py:247-293). -/
noncomputable def calculate_final_score (store : String → List Tx)
    (ercStore : String → List Erc20Rec) (lookup : String → Option LabelInfo)
    (apiConfigured : Bool) (now : ℤ) (address : String) : ScoreOutcome :=
  match normalize_address address with
  | none => ⟨address, "Invalid Ethereum address format", 0, none, [], [], none⟩
  | some a =>
    let df_tx := fetch_tx_from_db store a
    if df_tx = [] then
      ⟨a, "Error: Could not load tx data. Check ingestion step.", 0, none, [], [], none⟩
    else
      let df_erc20 := fetch_erc20_from_db ercStore a
      let scan := detect_tagged_scam_counterparties lookup apiConfigured df_tx
      let ind := mkIndicators (calculate_activity_score df_tx)
        (calculate_longevity_score df_tx now)
        (calculate_diversity_score df_tx)
        (calculate_general_risk_score df_tx scan.1)
        (calculate_asset_risk_score df_tx df_erc20)
      let final := aggregateScore ind
      ⟨a, "OK", round2 final, some (profile_of final), ind, WEIGHTS, some scan⟩

/-- C1: the aggregator's final score is the weighted sum of the five
indicators with weights 25/20/25/25/5 divided by 100; the weights sum to
100, and whenever every indicator lies in [0,100] the final score lies
in [0,100]. -/
theorem aggregate_weighted_sum_bounds (a l d g r : ℝ)
    (ha : 0 ≤ a ∧ a ≤ 100) (hl : 0 ≤ l ∧ l ≤ 100) (hd : 0 ≤ d ∧ d ≤ 100)
    (hg : 0 ≤ g ∧ g ≤ 100) (hr : 0 ≤ r ∧ r ≤ 100) :
    aggregateScore (mkIndicators a l d g r)
      = (a * 25 + l * 20 + d * 25 + g * 25 + r * 5) / 100 ∧
    (WEIGHTS.map fun kw => kw.2).sum = 100 ∧
    0 ≤ aggregateScore (mkIndicators a l d g r) ∧
    aggregateScore (mkIndicators a l d g r) ≤ 100 := by
  have he : aggregateScore (mkIndicators a l d g r)
      = (a * 25 + l * 20 + d * 25 + g * 25 + r * 5) / 100 := by
    simp [aggregateScore, mkIndicators, WEIGHTS, lookupD, List.lookup]
    ring
  refine ⟨he, by decide, ?_, ?_⟩ <;> rw [he]
  · have := ha.1; have := hl.1; have := hd.1; have := hg.1; have := hr.1
    linarith
  · have := ha.2; have := hl.2; have := hd.2; have := hg.2; have := hr.2
    linarith

/-- C2: profile classification uses inclusive lower bounds evaluated
top-down: 85.00 is a Power User, 84.99 and 60.00 are Stable Users,
30.00 is Inactive/New, 29.99 is Low Trust. -/
theorem profile_boundaries_inclusive :
    profile_of 85 = "Power User - High Reputation" ∧
    profile_of 84.99 = "Stable User - Medium Reputation" ∧
    profile_of 60 = "Stable User - Medium Reputation" ∧
    profile_of 30 = "Inactive/New User - Low Reputation" ∧
    profile_of 29.99 = "Low Trust / Risk-Exposed Wallet" := by
  refine ⟨?_, ?_, ?_, ?_, ?_⟩ <;> norm_num [profile_of]

/-- C3: on an empty transaction set (and no incident data) the indicator
defaults are Activity 0, Longevity 0, Diversity 0, General_Risk 100,
Asset_Risk 100. -/
theorem indicator_empty_defaults (now : ℤ) :
    calculate_activity_score [] = 0 ∧
    calculate_longevity_score [] now = 0 ∧
    calculate_diversity_score [] = 0 ∧
    calculate_general_risk_score [] 0 = 100 ∧
    calculate_asset_risk_score [] [] = 100 := by
  refine ⟨by simp [calculate_activity_score],
    by simp [calculate_longevity_score],
    by simp [calculate_diversity_score],
    by simp [calculate_general_risk_score], ?_⟩
  simp [calculate_asset_risk_score, npClip, Real.exp_zero]
  norm_num [round2, round_eq]

theorem dropWhile_eq_self_of_all {p : Char → Bool} {l : List Char}
    (h : ∀ c ∈ l, p c = false) : l.dropWhile p = l := by
  cases l with
  | nil => rfl
  | cons a t =>
    rw [List.dropWhile_cons, h a (by simp)]
    simp

theorem pyStripChars_eq_self {l : List Char}
    (h : ∀ c ∈ l, pyWhitespaceChar c = false) : pyStripChars l = l := by
  unfold pyStripChars
  rw [dropWhile_eq_self_of_all h,
    dropWhile_eq_self_of_all (fun c hc => h c (List.mem_reverse.1 hc)),
    List.reverse_reverse]

theorem map_eq_self_of_all {f : Char → Char} {l : List Char}
    (h : ∀ c ∈ l, f c = c) : l.map f = l := by
  induction l with
  | nil => rfl
  | cons a t ih =>
    simp only [List.map_cons, h a (by simp), ih (fun c hc => h c (by simp [hc]))]

theorem hexish_char_fix {c : Char}
    (h : c = '0' ∨ c = 'x' ∨ isLowerHexChar c = true) :
    pyWhitespaceChar c = false ∧ pyLowerChar c = c := by
  rcases h with h | h | h
  · subst h; exact ⟨by decide, by decide⟩
  · subst h; exact ⟨by decide, by decide⟩
  · have h' := of_decide_eq_true h
    constructor
    · apply decide_eq_false
      intro hmem
      rcases h' with ⟨h1, h2⟩ | ⟨h1, h2⟩ <;> fin_cases hmem <;>
        exact absurd h1 (by decide)
    · unfold pyLowerChar
      rw [if_neg]
      rintro ⟨hA, hZ⟩
      rcases h' with ⟨h1, h2⟩ | ⟨h1, h2⟩
      · exact absurd (le_trans hA h2) (by decide)
      · exact absurd (le_trans h1 hZ) (by decide)

theorem matchesEthAddr_chars {y : String} (hm : matchesEthAddr y = true) :
    ∀ c ∈ y.data, c = '0' ∨ c = 'x' ∨ isLowerHexChar c = true := by
  obtain ⟨-, htake, hall⟩ := of_decide_eq_true hm
  intro c hc
  rw [← List.take_append_drop 2 y.data] at hc
  rcases List.mem_append.1 hc with h | h
  · rw [htake] at h
    simp only [List.mem_cons, List.not_mem_nil, or_false] at h
    rcases h with h | h
    · exact Or.inl h
    · exact Or.inr (Or.inl h)
  · exact Or.inr (Or.inr (List.all_eq_true.1 hall c h))

/-- C6: normalization is idempotent on every string it accepts, and it
rejects every string whose trimmed, lowercased form does not match
`0x` followed by 40 lowercase hex digits. -/
theorem normalize_address_idem_and_reject :
    (∀ x y : String, normalize_address x = some y → normalize_address y = some y) ∧
    (∀ x : String, matchesEthAddr (pyLowerStr (pyStrip x)) = false →
      normalize_address x = none) := by
  constructor
  · intro x y hxy
    unfold normalize_address at hxy
    by_cases hm : matchesEthAddr (pyLowerStr (pyStrip x)) = true
    · simp only [hm, if_true, Option.some.injEq] at hxy
      subst hxy
      set y := pyLowerStr (pyStrip x) with hy
      have hchars := matchesEthAddr_chars hm
      have hsy : pyStrip y = y := by
        apply String.ext
        show pyStripChars y.data = y.data
        exact pyStripChars_eq_self fun c hc => (hexish_char_fix (hchars c hc)).1
      have hly : pyLowerStr y = y := by
        apply String.ext
        show y.data.map pyLowerChar = y.data
        exact map_eq_self_of_all fun c hc => (hexish_char_fix (hchars c hc)).2
      unfold normalize_address
      rw [hsy, hly]
      simp [hm]
    · simp only [Bool.not_eq_true] at hm
      simp [hm] at hxy
  · intro x hx
    unfold normalize_address
    simp [hx]

/-- Witness for C6 at a concrete padded, mixed-case address (accepted
and idempotent) and a concrete malformed string (rejected). -/
theorem normalize_address_idem_and_reject_witness :
    normalize_address ("  0Xabcdef0123456789ABCDEF0123456789abcdef01 ")
      = some ("0xabcdef0123456789abcdef0123456789abcdef01") ∧
    normalize_address ("0xabcdef0123456789abcdef0123456789abcdef01")
      = some ("0xabcdef0123456789abcdef0123456789abcdef01") ∧
    normalize_address ("zz") = none := by
  have h1 : normalize_address ("  0Xabcdef0123456789ABCDEF0123456789abcdef01 ")
      = some ("0xabcdef0123456789abcdef0123456789abcdef01") := by decide
  exact ⟨h1, normalize_address_idem_and_reject.1 _ _ h1,
    normalize_address_idem_and_reject.2 ("zz") (by decide)⟩

/-- C10: the top-level scoring function is total over strings — every
input yields a structured result whose status is one of the three fixed
status strings — and a malformed address yields the invalid-address
status, a final_score of 0 and an empty indicators mapping. -/
theorem score_total_and_invalid_address (store : String → List Tx)
    (ercStore : String → List Erc20Rec) (lookup : String → Option LabelInfo)
    (apiConfigured : Bool) (now : ℤ) (address : String) :
    ((calculate_final_score store ercStore lookup apiConfigured now address).status
        = "Invalid Ethereum address format" ∨
      (calculate_final_score store ercStore lookup apiConfigured now address).status
        = "Error: Could not load tx data. Check ingestion step." ∨
      (calculate_final_score store ercStore lookup apiConfigured now address).status
        = "OK") ∧
    (normalize_address address = none →
      calculate_final_score store ercStore lookup apiConfigured now address =
        ⟨address, "Invalid Ethereum address format", 0, none, [], [], none⟩) := by
  constructor
  · unfold calculate_final_score
    cases h : normalize_address address with
    | none => simp
    | some a =>
      simp only []
      split
      · simp
      · simp
  · intro h
    unfold calculate_final_score
    rw [h]

/-- Witness for C10 at the concrete malformed input `"zzz"`. -/
theorem score_total_and_invalid_address_witness :
    calculate_final_score (fun _ => []) (fun _ => []) (fun _ => none)
        false 0 ("zzz") =
      ⟨("zzz"), "Invalid Ethereum address format", 0, none, [], [], none⟩ :=
  (score_total_and_invalid_address _ _ _ _ _ _).2 (by decide)

/-- C5: when the store yields no transaction rows for the normalized
address, scoring terminates with the structured no-transaction-data
status, a placeholder final_score of 0, no profile and no indicator
values — whatever token transfers the ERC-20 store holds. -/
theorem no_tx_data_terminal_error (store : String → List Tx)
    (ercStore : String → List Erc20Rec) (lookup : String → Option LabelInfo)
    (apiConfigured : Bool) (now : ℤ) (address a : String)
    (h1 : normalize_address address = some a) (h2 : store a = []) :
    calculate_final_score store ercStore lookup apiConfigured now address =
      ⟨a, "Error: Could not load tx data. Check ingestion step.", 0,
        none, [], [], none⟩ := by
  unfold calculate_final_score
  rw [h1]
  simp [fetch_tx_from_db, h2]

/-- Witness for C5: a valid address whose transaction store is empty
while the token-transfer store is not. -/
theorem no_tx_data_terminal_error_witness :
    calculate_final_score (fun _ => [])
        (fun _ => [⟨("0xaaaaaaaaaaaaaaaaaaaaaaaaaaaaaaaaaaaaaaaa"), ("TOK")⟩])
        (fun _ => none) true 0
        ("0xabcdef0123456789abcdef0123456789abcdef01") =
      ⟨("0xabcdef0123456789abcdef0123456789abcdef01"),
        "Error: Could not load tx data. Check ingestion step.", 0,
        none, [], [], none⟩ :=
  no_tx_data_terminal_error _ _ _ _ _ _ _ (by decide) rfl

theorem round2_mono {x y : ℝ} (h : x ≤ y) : round2 x ≤ round2 y := by
  unfold round2
  have hr : round (x * 100) ≤ round (y * 100) := by
    rw [round_eq, round_eq]
    exact Int.floor_le_floor (by linarith)
  have hc : ((round (x * 100) : ℤ) : ℝ) ≤ ((round (y * 100) : ℤ) : ℝ) :=
    Int.cast_le.2 hr
  linarith

theorem round2_zero : round2 0 = 0 := by simp [round2]

theorem round2_hundred : round2 100 = 100 := by
  have : ((100 : ℝ) * 100) = ((10000 : ℤ) : ℝ) := by norm_num
  rw [round2, this, round_intCast]
  norm_num

theorem round2_bounds {x : ℝ} (h0 : 0 ≤ x) (h100 : x ≤ 100) :
    0 ≤ round2 x ∧ round2 x ≤ 100 := by
  constructor
  · have h := round2_mono h0
    rwa [round2_zero] at h
  · have h := round2_mono h100
    rwa [round2_hundred] at h

theorem npClip_bounds (x lo hi : ℝ) (h : lo ≤ hi) :
    lo ≤ npClip x lo hi ∧ npClip x lo hi ≤ hi :=
  ⟨le_max_left _ _, max_le h (min_le_right _ _)⟩

/-- C4: all five indicator functions return values in [0,100] for
arbitrary non-negative input data — the raw value is clipped to range
before the 2-decimal rounding, so rounding cannot leave [0,100]. -/
theorem indicator_bounds (txs : List Tx) (erc20 : List Erc20Rec) (now : ℤ)
    (tagged : ℕ) (hval : ∀ t ∈ txs, 0 ≤ t.value_eth) :
    (0 ≤ calculate_activity_score txs ∧ calculate_activity_score txs ≤ 100) ∧
    (0 ≤ calculate_longevity_score txs now ∧
      calculate_longevity_score txs now ≤ 100) ∧
    (0 ≤ calculate_diversity_score txs ∧ calculate_diversity_score txs ≤ 100) ∧
    (0 ≤ calculate_general_risk_score txs tagged ∧
      calculate_general_risk_score txs tagged ≤ 100) ∧
    (0 ≤ calculate_asset_risk_score txs erc20 ∧
      calculate_asset_risk_score txs erc20 ≤ 100) := by
  refine ⟨?_, ?_, ?_, ?_, ?_⟩
  · unfold calculate_activity_score
    split
    · norm_num
    · have ht := npClip_bounds (Real.logb 10 ((txs.length : ℝ) + 1) /
        Real.logb 10 (5000 + 1)) 0 1 (by norm_num)
      have hv := npClip_bounds (Real.logb 10
        ((((txs.map fun t => t.value_eth).sum : ℚ) : ℝ) + 1) /
        Real.logb 10 (10000 + 1)) 0 1 (by norm_num)
      exact round2_bounds (by nlinarith [ht.1, hv.1]) (by nlinarith [ht.2, hv.2])
  · unfold calculate_longevity_score
    split
    · norm_num
    · have hpos : (0 : ℝ) < Real.log (730 + 1) := Real.log_pos (by norm_num)
      dsimp only
      rw [if_pos hpos]
      have hd : (0 : ℝ) ≤ ((max ((now - minTimeStamp txs).fdiv 86400) 0 : ℤ) : ℝ) := by
        exact_mod_cast le_max_right ((now - minTimeStamp txs).fdiv 86400) 0
      have hs : 0 ≤ Real.log (((max ((now - minTimeStamp txs).fdiv 86400) 0 : ℤ) : ℝ) + 1) /
          Real.log (730 + 1) * 100 := by
        have := Real.log_nonneg (by linarith :
          (1 : ℝ) ≤ ((max ((now - minTimeStamp txs).fdiv 86400) 0 : ℤ) : ℝ) + 1)
        positivity
      exact round2_bounds (le_min hs (by norm_num)) (min_le_right _ _)
  · unfold calculate_diversity_score
    split
    · norm_num
    · dsimp only
      rw [if_pos (by norm_num : (0 : ℝ) < 25)]
      refine round2_bounds (le_min (by norm_num) (by positivity)) (min_le_left _ _)
  · unfold calculate_general_risk_score
    split
    · norm_num
    · have h := npClip_bounds (100 * Real.exp (-(0.9) *
        (((txs.filter fun t =>
          decide (t.toAddr ∈ KNOWN_SCAM_ADDRESSES)).length + tagged : ℕ) : ℝ)))
        0 100 (by norm_num)
      exact round2_bounds h.1 h.2
  · unfold calculate_asset_risk_score
    have h := npClip_bounds (100 * Real.exp (-(0.6) *
      (((if txs = [] then 0
          else (txs.filter fun t =>
            decide (t.toAddr ∈ MIXER_OR_PRIVACY_TOOLING)).length) +
        (if erc20 = [] then 0
          else (erc20.filter fun r =>
            decide (r.contractAddress ∈ PRIVACY_TOKEN_CONTRACTS)).length) : ℕ) : ℝ)))
      0 100 (by norm_num)
    exact round2_bounds h.1 h.2

/-- Witness for C4 at a concrete one-transaction input. -/
theorem indicator_bounds_witness :
    (∀ t ∈ ([⟨0, ("0xaa"), ("0xbb"), 1⟩] : List Tx), 0 ≤ t.value_eth) ∧
    (0 ≤ calculate_activity_score [⟨0, ("0xaa"), ("0xbb"), 1⟩] ∧
      calculate_activity_score [⟨0, ("0xaa"), ("0xbb"), 1⟩] ≤ 100) :=
  ⟨by decide, (indicator_bounds [⟨0, ("0xaa"), ("0xbb"), 1⟩] [] 86400 1
    (by decide)).1⟩

theorem round2_int (n : ℤ) : round2 ((n : ℝ)) = ((n : ℝ)) := by
  unfold round2
  have h : ((n : ℝ)) * 100 = (((n * 100 : ℤ)) : ℝ) := by push_cast; ring
  rw [h, round_intCast]
  push_cast
  field_simp

theorem longevity_365_eq :
    calculate_longevity_score [⟨0, ("0xaa"), ("0xbb"), 1⟩] 31536000
      = round2 (Real.log 366 / Real.log 731 * 100) := by
  have l731 : (0 : ℝ) < Real.log (730 + 1) := Real.log_pos (by norm_num)
  have hle : Real.log 366 ≤ Real.log 731 :=
    (Real.log_le_log_iff (by norm_num) (by norm_num)).2 (by norm_num)
  unfold calculate_longevity_score
  rw [if_neg (by simp)]
  dsimp only
  rw [if_pos l731]
  have hmin : minTimeStamp [⟨0, ("0xaa"), ("0xbb"), 1⟩] = 0 := by
    simp [minTimeStamp]
  rw [hmin]
  have hfd : ((31536000 : ℤ) - 0).fdiv 86400 ⊔ 0 = 365 := by decide
  rw [hfd]
  have hcast : (((365 : ℤ) : ℝ)) + 1 = 366 := by norm_num
  rw [hcast]
  have h731 : ((730 : ℝ)) + 1 = 731 := by norm_num
  rw [h731]
  congr 1
  have hq : Real.log 366 / Real.log 731 * 100 ≤ 100 := by
    have h1 : Real.log 366 / Real.log 731 ≤ 1 := by
      rw [div_le_one (by rw [show ((730:ℝ)) + 1 = 731 from by norm_num] at l731; exact l731)]
      exact hle
    nlinarith
  exact min_eq_left hq

theorem log_ratio_bounds :
    89 ≤ Real.log 366 / Real.log 731 * 100 ∧
    Real.log 366 / Real.log 731 * 100 ≤ 90 := by
  have l731 : (0 : ℝ) < Real.log 731 := Real.log_pos (by norm_num)
  have hlow : (89 : ℝ) * Real.log 731 ≤ 100 * Real.log 366 := by
    have hpow : ((731 : ℝ)) ^ (89 : ℕ) ≤ ((366 : ℝ)) ^ (100 : ℕ) := by norm_num
    have h := (Real.log_le_log_iff (by positivity) (by positivity)).2 hpow
    rw [Real.log_pow, Real.log_pow] at h
    push_cast at h
    linarith
  have hhigh : 100 * Real.log 366 ≤ 90 * Real.log 731 := by
    have hpow : ((366 : ℝ)) ^ (100 : ℕ) ≤ ((731 : ℝ)) ^ (90 : ℕ) := by norm_num
    have h := (Real.log_le_log_iff (by positivity) (by positivity)).2 hpow
    rw [Real.log_pow, Real.log_pow] at h
    push_cast at h
    linarith
  constructor
  · rw [show Real.log 366 / Real.log 731 * 100 = 100 * Real.log 366 / Real.log 731
      from by ring]
    rw [le_div_iff l731]
    linarith
  · rw [show Real.log 366 / Real.log 731 * 100 = 100 * Real.log 366 / Real.log 731
      from by ring]
    rw [div_le_iff l731]
    linarith

/-- C9 counterexample: for a single transaction exactly 365 days old the
Longevity_Score is at least 89, so it is not approximately 88.89 as the
claim (following the spec) states. -/
theorem longevity_one_year_not_8889 :
    89 ≤ calculate_longevity_score [⟨0, ("0xaa"), ("0xbb"), 1⟩] 31536000 ∧
    calculate_longevity_score [⟨0, ("0xaa"), ("0xbb"), 1⟩] 31536000
      ≠ 8889 / 100 := by
  have heq := longevity_365_eq
  have hb := log_ratio_bounds
  have h89 : (89 : ℝ) ≤ round2 (Real.log 366 / Real.log 731 * 100) := by
    have hm := round2_mono hb.1
    rw [show ((89 : ℝ)) = (((89 : ℤ)) : ℝ) from by norm_num, round2_int] at hm
    exact_mod_cast hm
  constructor
  · rw [heq]; exact h89
  · rw [heq]
    intro hbad
    rw [hbad] at h89
    norm_num at h89

/-- C9 amended: for a single transaction whose timestamp is exactly 365
days before now, Longevity_Score = round(log(366)/log(731)*100, 2),
which lies between 89 and 90 (≈89.51), not ≈88.89. -/
theorem longevity_one_year_value :
    calculate_longevity_score [⟨0, ("0xaa"), ("0xbb"), 1⟩] 31536000
      = round2 (Real.log 366 / Real.log 731 * 100) ∧
    89 ≤ calculate_longevity_score [⟨0, ("0xaa"), ("0xbb"), 1⟩] 31536000 ∧
    calculate_longevity_score [⟨0, ("0xaa"), ("0xbb"), 1⟩] 31536000 ≤ 90 := by
  have heq := longevity_365_eq
  have hb := log_ratio_bounds
  refine ⟨heq, ?_, ?_⟩
  · rw [heq]
    have hm := round2_mono hb.1
    rw [show ((89 : ℝ)) = (((89 : ℤ)) : ℝ) from by norm_num, round2_int] at hm
    exact_mod_cast hm
  · rw [heq]
    have hm := round2_mono hb.2
    rw [show ((90 : ℝ)) = (((90 : ℤ)) : ℝ) from by norm_num, round2_int] at hm
    exact_mod_cast hm

theorem prefix_through_sep {n xs ys : List Char} {c : Char} (hc : c ∉ n) :
    n <+: xs ++ c :: ys → n <+: xs := by
  induction xs generalizing n with
  | nil =>
    intro h
    cases n with
    | nil => exact List.nil_prefix
    | cons d n' =>
      simp only [List.nil_append] at h
      obtain ⟨rfl, -⟩ := List.cons_prefix_cons.1 h
      exact absurd (List.mem_cons_self _ _) hc
  | cons x xs ih =>
    intro h
    cases n with
    | nil => exact List.nil_prefix
    | cons d n' =>
      rw [List.cons_append] at h
      obtain ⟨rfl, h'⟩ := List.cons_prefix_cons.1 h
      have hc' : c ∉ n' := fun hm => hc (List.mem_cons_of_mem _ hm)
      exact List.cons_prefix_cons.2 ⟨rfl, ih hc' h'⟩

theorem infix_split {n : List Char} {c : Char} (hc : c ∉ n) :
    ∀ xs ys : List Char, n <:+: xs ++ c :: ys → n <:+: xs ∨ n <:+: ys := by
  intro xs
  induction xs with
  | nil =>
    intro ys h
    simp only [List.nil_append] at h
    rcases List.infix_cons_iff.1 h with h | h
    · cases n with
      | nil => exact Or.inl List.nil_infix
      | cons d n' =>
        obtain ⟨rfl, -⟩ := List.cons_prefix_cons.1 h
        exact absurd (List.mem_cons_self _ _) hc
    · exact Or.inr h
  | cons x xs ih =>
    intro ys h
    rw [List.cons_append] at h
    rcases List.infix_cons_iff.1 h with h | h
    · rw [← List.cons_append] at h
      exact Or.inl ( List.IsPrefix.isInfix (prefix_through_sep hc h))
    · rcases ih ys h with h' | h'
      · exact Or.inl (List.infix_cons h')
      · exact Or.inr h'

theorem infix_join_of_part {n xs ys : List Char} {c : Char}
    (h : n <:+: xs ∨ n <:+: ys) : n <:+: xs ++ c :: ys := by
  rcases h with h | h
  · exact h.trans ( List.IsPrefix.isInfix (List.prefix_append xs (c :: ys)))
  · exact h.trans ( List.IsSuffix.isInfix ((List.suffix_cons c ys).trans (List.suffix_append xs (c :: ys))))

theorem strContains_joinWithSpace {m : String} (hm : (' ') ∉ m.data)
    (hne : m.data ≠ []) :
    ∀ xs : List String,
      (m.data <:+: (joinWithSpace xs).data ↔ ∃ s ∈ xs, m.data <:+: s.data) := by
  intro xs
  induction xs with
  | nil => simp [joinWithSpace, hne]
  | cons s rest ih =>
    cases rest with
    | nil => simp [joinWithSpace]
    | cons s' rest' =>
      have hdata : (joinWithSpace (s :: s' :: rest')).data
          = s.data ++ (' ') :: (joinWithSpace (s' :: rest')).data := by
        show (s ++ " " ++ joinWithSpace (s' :: rest')).data = _
        simp [String.data_append]
      rw [hdata]
      constructor
      · intro h
        rcases infix_split hm _ _ h with h' | h'
        · exact ⟨s, by simp, h'⟩
        · obtain ⟨t, ht, h''⟩ := ih.1 h'
          exact ⟨t, List.mem_cons_of_mem _ ht, h''⟩
      · rintro ⟨t, ht, h''⟩
        rcases List.mem_cons.1 ht with rfl | ht'
        · exact infix_join_of_part (Or.inl h'')
        · exact infix_join_of_part (Or.inr (ih.2 ⟨t, ht', h''⟩))

theorem markers_ok : ∀ m ∈ SCAM_MARKERS, (' ') ∉ m.data ∧ m.data ≠ [] := by
  decide

/-- C7: the scam classifier answers true exactly when some label or slug
string, lowercased, contains one of the nine fixed markers as a
substring; absent or empty label info yields false. -/
theorem is_scam_label_marker_iff (tag : Option LabelInfo) :
    is_scam_label tag = true ↔
      ∃ info, tag = some info ∧ ∃ s,
        (s ∈ info.labels ∨ s ∈ info.labels_slug) ∧
        ∃ m ∈ SCAM_MARKERS, strContainsSub (pyLowerStr s) m = true := by
  cases tag with
  | none => simp [is_scam_label]
  | some t =>
    simp only [is_scam_label, Bool.or_eq_true, List.any_eq_true]
    constructor
    · rintro (⟨m, hm, hc⟩ | ⟨m, hm, hc⟩)
      · have h := of_decide_eq_true hc
        obtain ⟨s, hs, hsub⟩ :=
          (strContains_joinWithSpace (markers_ok m hm).1 (markers_ok m hm).2 _).1 h
        obtain ⟨x, hx, rfl⟩ := List.mem_map.1 hs
        exact ⟨t, rfl, x, Or.inl hx, m, hm, decide_eq_true hsub⟩
      · have h := of_decide_eq_true hc
        obtain ⟨s, hs, hsub⟩ :=
          (strContains_joinWithSpace (markers_ok m hm).1 (markers_ok m hm).2 _).1 h
        obtain ⟨x, hx, rfl⟩ := List.mem_map.1 hs
        exact ⟨t, rfl, x, Or.inr hx, m, hm, decide_eq_true hsub⟩
    · rintro ⟨info, hinfo, s, hmem, m, hm, hc⟩
      obtain rfl : info = t := by injection hinfo.symm
      rcases hmem with hs | hs
      · exact Or.inl ⟨m, hm, decide_eq_true
          ((strContains_joinWithSpace (markers_ok m hm).1 (markers_ok m hm).2 _).2
            ⟨pyLowerStr s, List.mem_map_of_mem _ hs, of_decide_eq_true hc⟩)⟩
      · exact Or.inr ⟨m, hm, decide_eq_true
          ((strContains_joinWithSpace (markers_ok m hm).1 (markers_ok m hm).2 _).2
            ⟨pyLowerStr s, List.mem_map_of_mem _ hs, of_decide_eq_true hc⟩)⟩

theorem cpLE_trans (tos : List String) :
    ∀ a b c, cpLE tos a b → cpLE tos b c → cpLE tos a c := by
  intro a b c hab hbc
  simp only [cpLE, decide_eq_true_eq] at hab hbc ⊢
  omega

theorem cpLE_total (tos : List String) :
    ∀ a b, cpLE tos a b || cpLE tos b a := by
  intro a b
  simp only [cpLE, Bool.or_eq_true, decide_eq_true_eq]
  omega

theorem topRecipients_subset {txs : List Tx} {a : String}
    (h : a ∈ topRecipients txs) : a ∈ recipientList txs := by
  unfold topRecipients at h
  exact List.mem_dedup.1 (List.mem_mergeSort.1 (List.mem_of_mem_take h))

theorem topRecipients_nodup (txs : List Tx) : (topRecipients txs).Nodup := by
  unfold topRecipients
  exact (List.take_sublist _ _).nodup
    (((List.mergeSort_perm _ _).nodup_iff).2 (List.nodup_dedup _))

theorem topRecipients_ranked (txs : List Tx) :
    List.Pairwise (fun a b =>
      cpCount (recipientList txs) b < cpCount (recipientList txs) a ∨
      (cpCount (recipientList txs) a = cpCount (recipientList txs) b ∧
        cpIdx (recipientList txs) a < cpIdx (recipientList txs) b))
      (topRecipients txs) := by
  have hsorted : (topRecipients txs).Pairwise
      (fun a b => cpLE (recipientList txs) a b = true) := by
    unfold topRecipients
    exact List.Pairwise.sublist (List.take_sublist _ _)
      (List.sorted_mergeSort (cpLE_trans (recipientList txs))
        (cpLE_total (recipientList txs)) _)
  have hcomb := hsorted.and (topRecipients_nodup txs)
  refine hcomb.imp_of_mem ?_
  intro a b ha hb hab
  obtain ⟨hle, hne⟩ := hab
  have ha' := topRecipients_subset ha
  have hb' := topRecipients_subset hb
  simp only [cpLE, decide_eq_true_eq] at hle
  rcases hle with h | ⟨hcnt, hidx⟩
  · exact Or.inl h
  · refine Or.inr ⟨hcnt, lt_of_le_of_ne hidx ?_⟩
    intro hix
    exact hne ((List.indexOf_inj ha' hb').1 hix)

/-- C8: on any non-empty transaction set the counterparty scan selects at
most 40 candidates, ranked by occurrence count descending with ties
broken by first-seen order; it returns the count of candidates
classified as scam together with a sample of at most the first 10
flagged addresses, and a failed lookup (`none`) is never flagged and
never aborts the scan. -/
theorem counterparty_scan_properties (lookup : String → Option LabelInfo)
    (txs : List Tx) (hne : txs ≠ []) :
    (topRecipients txs).length ≤ 40 ∧
    List.Pairwise (fun a b =>
      cpCount (recipientList txs) b < cpCount (recipientList txs) a ∨
      (cpCount (recipientList txs) a = cpCount (recipientList txs) b ∧
        cpIdx (recipientList txs) a < cpIdx (recipientList txs) b))
      (topRecipients txs) ∧
    (detect_tagged_scam_counterparties lookup true txs).1
      = ((topRecipients txs).filter fun a =>
          matchesEthAddr a && is_scam_label (lookup a)).length ∧
    (detect_tagged_scam_counterparties lookup true txs).2
      = ((topRecipients txs).filter fun a =>
          matchesEthAddr a && is_scam_label (lookup a)).take 10 ∧
    (detect_tagged_scam_counterparties lookup true txs).2.length ≤ 10 ∧
    (∀ a, lookup a = none →
      a ∉ (detect_tagged_scam_counterparties lookup true txs).2) := by
  have hres : detect_tagged_scam_counterparties lookup true txs =
      (((topRecipients txs).filter fun a =>
          matchesEthAddr a && is_scam_label (lookup a)).length,
        ((topRecipients txs).filter fun a =>
          matchesEthAddr a && is_scam_label (lookup a)).take 10) := by
    unfold detect_tagged_scam_counterparties
    rw [if_neg (by simp [hne])]
  refine ⟨?_, topRecipients_ranked txs, ?_, ?_, ?_, ?_⟩
  · unfold topRecipients
    exact List.length_take_le _ _
  · rw [hres]
  · rw [hres]
  · rw [hres]
    exact List.length_take_le _ _
  · intro a hl hmem
    rw [hres] at hmem
    obtain ⟨-, hp⟩ := List.mem_filter.1 (List.mem_of_mem_take hmem)
    rw [hl] at hp
    simp [is_scam_label] at hp

/-- Witness for C8 at a concrete one-transaction set with a lookup that
always fails. -/
theorem counterparty_scan_properties_witness :
    (([⟨0, ("0xaa"), ("0xbb"), 1⟩] : List Tx) ≠ []) ∧
    (topRecipients [⟨0, ("0xaa"), ("0xbb"), 1⟩]).length ≤ 40 ∧
    (detect_tagged_scam_counterparties (fun _ => none) true
      [⟨0, ("0xaa"), ("0xbb"), 1⟩]).2.length ≤ 10 :=
  ⟨by decide,
    (counterparty_scan_properties (fun _ => none) _ (by decide)).1,
    (counterparty_scan_properties (fun _ => none) _ (by decide)).2.2.2.2.1⟩

/-- Witness for C1 at the concrete indicator vector (50, 50, 50, 50, 50). -/
theorem aggregate_weighted_sum_bounds_witness :
    ((0 : ℝ) ≤ 50 ∧ (50 : ℝ) ≤ 100) ∧
    (aggregateScore (mkIndicators 50 50 50 50 50)
        = (50 * 25 + 50 * 20 + 50 * 25 + 50 * 25 + 50 * 5) / 100 ∧
      (WEIGHTS.map fun kw => kw.2).sum = 100 ∧
      0 ≤ aggregateScore (mkIndicators 50 50 50 50 50) ∧
      aggregateScore (mkIndicators 50 50 50 50 50) ≤ 100) :=
  ⟨⟨by norm_num, by norm_num⟩,
    aggregate_weighted_sum_bounds 50 50 50 50 50 ⟨by norm_num, by norm_num⟩
      ⟨by norm_num, by norm_num⟩ ⟨by norm_num, by norm_num⟩
      ⟨by norm_num, by norm_num⟩ ⟨by norm_num, by norm_num⟩⟩
